import Mathlib



/-!
Verification development for the shortlink-core repository.

This file shallowly embeds the storage backends (memory, Redis cache,
PostgreSQL durable store, and their combination) and the Snowflake/base-62
identifier encoder, and proves the specified properties about them.

Go maps are embedded as association lists (StrMap), Go errors as the
StoreErr inductive (matching the sentinel errors ErrNotFound and
ErrInvalidURL of internal/storage/storage.go plus wrapped backend errors),
and fallible operations return Except values paired with the successor
state.  Remote-store unavailability is injected at the method level through
boolean fault flags, matching the granularity at which CombinedStorage
observes failures of its two constituents.
-/

/-- Errors of the storage layer: ErrNotFound, ErrInvalidURL, a
backend-specific failure, and fmt.Errorf-style wrapping (a wrapped error is
a distinct value, mirroring Go's comparison of errors with ==). -/
inductive StoreErr where
  | notFound
  | invalidURL
  | backendFail (msg : String)
  | wrapped (msg : String) (inner : StoreErr)
deriving DecidableEq, Repr

instance {ε α : Type} [DecidableEq ε] [DecidableEq α] : DecidableEq (Except ε α) := fun a b =>
  match a, b with
  | .ok x, .ok y => decidable_of_iff (x = y) (by simp)
  | .error x, .error y => decidable_of_iff (x = y) (by simp)
  | .ok _, .error _ => isFalse (by simp)
  | .error _, .ok _ => isFalse (by simp)

/-- Association-list embedding of a Go map with String keys and values.
Only the three primitives below observe or change it, so the embedding is
faithful to Go map semantics (lookup, assignment, deletion). -/
abbrev StrMap := List (String × String)

/-- Lookup in a map: the value, ok := m[k] form of a Go map read. -/
def mfind : StrMap → String → Option String
  | [], _ => none
  | p :: t, k => if p.1 = k then some p.2 else mfind t k

/-- Deletion delete(m, k) of a Go map. -/
def merase : StrMap → String → StrMap
  | [], _ => []
  | p :: t, k => if p.1 = k then merase t k else p :: merase t k

/-- Assignment m[k] = v of a Go map (replaces any previous binding). -/
def mset (m : StrMap) (k v : String) : StrMap :=
  (k, v) :: merase m k

/-!
Base-62 encoding, from internal/utils (SnowflakeGenerator.Encode and
GenerateShortID).  Go's int64 is embedded as Int; the encoding loop runs
on the non-negative magnitude, so it is expressed with structural fuel
(one unit per loop iteration; the value shrinks by division, so fuel equal
to the starting value always suffices).
-/

/-- The Base62Charset constant of internal/utils: the character set for
base62 encoding (0-9, a-z, A-Z). -/
def Base62Charset : String :=
  "0123456789abcdefghijklmnopqrstuvwxyzABCDEFGHIJKLMNOPQRSTUVWXYZ"

/-- Byte indexing Base62Charset[d]; the charset is ASCII so this is the
d-th character. -/
def base62digit (d : Nat) : Char :=
  Base62Charset.data.getD d ' '

/-- The encoding loop of Encode: for id > 0, divide by 62 and prepend the
remainder's symbol.  Structural recursion on fuel. -/
def encodeAux (fuel id : Nat) : List Char :=
  match fuel with
  | 0 => []
  | fuel' + 1 =>
    if id = 0 then []
    else encodeAux fuel' (id / 62) ++ [base62digit (id % 62)]

/-- SnowflakeGenerator.Encode: converts a numeric ID to a base62 string.
Zero encodes to the first charset symbol; a negative id never enters the
loop and yields the empty string, exactly as the Go loop does. -/
def Encode (id : Int) : String :=
  if id = 0 then String.mk [base62digit 0]
  else String.mk (encodeAux id.toNat id.toNat)

/-- GenerateShortID of internal/utils: the generator call yields a value
and a possible error; on error the current wall-clock time in nanoseconds
is substituted, then the value is encoded.  The generator outcome and the
clock reading are the two inputs of the embedded function. -/
def GenerateShortID (nextIDResult : Int × Option String) (nowUnixNano : Int) : String :=
  let id := nextIDResult.1
  let id := match nextIDResult.2 with
    | some _ => nowUnixNano
    | none => id
  Encode id

/-!
MemoryStorage, from internal/storage (the revision exposing Find,
StoreWithID, Get): two maps, shortID to URL and URL to shortID, updated
together under one lock.  Single-threaded shallow embedding: each
operation is a function of the state.
-/

/-- The two maps of MemoryStorage: urls (shortID to originalURL) and
reverseUrls (originalURL to shortID). -/
structure MemoryStorage where
  urls : StrMap
  reverseUrls : StrMap
deriving DecidableEq, Repr

/-- MemoryStorage.Find: reverse lookup, ErrInvalidURL on empty input,
ErrNotFound when the URL has no short ID. -/
def MemoryStorage.find (s : MemoryStorage) (originalURL : String) : Except StoreErr String :=
  if originalURL = "" then .error .invalidURL
  else
    match mfind s.reverseUrls originalURL with
    | some shortID => .ok shortID
    | none => .error .notFound

/-- MemoryStorage.StoreWithID: validates the URL, removes a stale forward
mapping when the URL already has a different short ID, removes a stale
reverse mapping when the short ID already serves a different URL, then
writes both directions. -/
def MemoryStorage.storeWithID (s : MemoryStorage) (shortID originalURL : String) :
    Except StoreErr Unit × MemoryStorage :=
  if originalURL = "" then (.error .invalidURL, s)
  else
    let s₁ :=
      match mfind s.reverseUrls originalURL with
      | some existingShortID =>
        if existingShortID ≠ shortID then
          { s with urls := merase s.urls existingShortID }
        else s
      | none => s
    let s₂ :=
      match mfind s₁.urls shortID with
      | some existingURL =>
        if existingURL ≠ originalURL then
          { s₁ with reverseUrls := merase s₁.reverseUrls existingURL }
        else s₁
      | none => s₁
    (.ok (),
      { urls := mset s₂.urls shortID originalURL,
        reverseUrls := mset s₂.reverseUrls originalURL shortID })

/-- MemoryStorage.Get: forward lookup, ErrNotFound when absent. -/
def MemoryStorage.get (s : MemoryStorage) (shortID : String) : Except StoreErr String :=
  match mfind s.urls shortID with
  | some url => .ok url
  | none => .error .notFound

/-- One client call against MemoryStorage, for reasoning about reachable
states: Find and Get leave the state unchanged, StoreWithID may change it. -/
inductive MemOp where
  | find (originalURL : String)
  | store (shortID originalURL : String)
  | get (shortID : String)
deriving DecidableEq, Repr

/-- State reached after one MemoryStorage call. -/
def MemoryStorage.applyOp (s : MemoryStorage) : MemOp → MemoryStorage
  | .find _ => s
  | .store shortID originalURL => (s.storeWithID shortID originalURL).2
  | .get _ => s

/-- State of MemoryStorage after a sequence of calls starting from the
freshly constructed (empty) storage. -/
def runMemOps (ops : List MemOp) : MemoryStorage :=
  ops.foldl MemoryStorage.applyOp ⟨[], []⟩

/-!
RedisStorage, from the revision using the models key constants: forward
keys are the fixed prefix plus the short ID and carry a TTL, the reverse
index is the non-expiring reverse_urls hash.  The embedding keeps the
string-keyed store (kv) and the reverse hash (reverse) and omits TTL
bookkeeping; expiry of a forward key is represented by its absence from
kv, which is the only way expiry is observable to this code.
-/

/-- Redis state: the plain key space (holding the prefixed forward keys)
and the reverse_urls hash. -/
structure RedisState where
  kv : StrMap
  reverse : StrMap
deriving DecidableEq, Repr

/-- Forward key layout: models.ShortIDKeyPrefix ++ shortID, with
ShortIDKeyPrefix = "url:". -/
def shortIDKey (shortID : String) : String := "url:" ++ shortID

/-- RedisStorage.FindShortIDByURL: HGet on the reverse hash; on a hit,
check that the forward key still Exists, and when it does not, HDel the
dangling reverse entry and report ErrNotFound. -/
def RedisState.findShortIDByURL (s : RedisState) (originalURL : String) :
    Except StoreErr String × RedisState :=
  match mfind s.reverse originalURL with
  | none => (.error .notFound, s)
  | some shortID =>
    match mfind s.kv (shortIDKey shortID) with
    | none => (.error .notFound, { s with reverse := merase s.reverse originalURL })
    | some _ => (.ok shortID, s)

/-- RedisStorage.StoreWithID: validates the URL; when the URL already maps
to a different short ID, one pipeline deletes the old forward key and
writes both directions of the new mapping; otherwise one pipeline writes
both directions. -/
def RedisState.storeWithID (s : RedisState) (shortID originalURL : String) :
    Except StoreErr Unit × RedisState :=
  if originalURL = "" then (.error .invalidURL, s)
  else
    let r := s.findShortIDByURL originalURL
    let s₁ := r.2
    match r.1 with
    | .ok existingShortID =>
      if existingShortID ≠ shortID then
        (.ok (),
          { kv := mset (merase s₁.kv (shortIDKey existingShortID)) (shortIDKey shortID) originalURL,
            reverse := mset s₁.reverse originalURL shortID })
      else
        (.ok (),
          { kv := mset s₁.kv (shortIDKey shortID) originalURL,
            reverse := mset s₁.reverse originalURL shortID })
    | .error .notFound =>
      (.ok (),
        { kv := mset s₁.kv (shortIDKey shortID) originalURL,
          reverse := mset s₁.reverse originalURL shortID })
    | .error e => (.error e, s₁)

/-- RedisStorage.Get: read the forward key, ErrNotFound when absent or
expired; the TTL refresh on a hit does not change the observable state. -/
def RedisState.get (s : RedisState) (shortID : String) : Except StoreErr String :=
  match mfind s.kv (shortIDKey shortID) with
  | none => .error .notFound
  | some url => .ok url

/-!
PostgresStorage, from the revision whose StoreWithID replaces a stale
mapping inside one transaction (FindShortIDByURL, StoreWithID with
replaceURLMapping, Get).  The table urls is a row list; short_id is the
primary key and original_url carries a unique index, so an INSERT that
collides on either column fails and rolls the transaction back.  The
timestamp columns are advisory and not read by this logic, so rows carry
only the two string columns.
-/

/-- The urls table: rows of (short_id, original_url). -/
structure PgState where
  rows : List (String × String)
deriving DecidableEq, Repr

/-- SELECT short_id FROM urls WHERE original_url = $1 LIMIT 1. -/
def pgLookupByURL (rows : List (String × String)) (originalURL : String) : Option String :=
  (rows.find? (fun r => r.2 == originalURL)).map Prod.fst

/-- SELECT/UPDATE ... WHERE short_id = $1 row lookup. -/
def pgLookupByID (rows : List (String × String)) (shortID : String) : Option String :=
  (rows.find? (fun r => r.1 == shortID)).map Prod.snd

/-- INSERT INTO urls (short_id, original_url) VALUES ($1, $2): appends the
row, or fails when the primary key or the unique index on original_url is
violated. -/
def pgInsert (rows : List (String × String)) (shortID originalURL : String) :
    Except StoreErr (List (String × String)) :=
  if rows.any (fun r => r.1 == shortID) then
    .error (.backendFail "failed to insert URL: duplicate key value violates unique constraint")
  else if rows.any (fun r => r.2 == originalURL) then
    .error (.backendFail "failed to insert URL: duplicate key value violates unique constraint")
  else .ok (rows ++ [(shortID, originalURL)])

/-- PostgresStorage.FindShortIDByURL: ErrInvalidURL on empty input, then
the reverse SELECT; no row means ErrNotFound. -/
def PgState.findShortIDByURL (s : PgState) (originalURL : String) : Except StoreErr String :=
  if originalURL = "" then .error .invalidURL
  else
    match pgLookupByURL s.rows originalURL with
    | some shortID => .ok shortID
    | none => .error .notFound

/-- PostgresStorage.StoreWithID: validates the URL; when the URL already
exists under a different short ID, replaceURLMapping deletes the old row
and inserts the new one in a single transaction (all-or-nothing); when it
exists under the same short ID, no-op; otherwise a fresh transactional
insert.  A failed transaction rolls back, leaving the table unchanged. -/
def PgState.storeWithID (s : PgState) (shortID originalURL : String) :
    Except StoreErr Unit × PgState :=
  if originalURL = "" then (.error .invalidURL, s)
  else
    match pgLookupByURL s.rows originalURL with
    | some existingShortID =>
      if existingShortID ≠ shortID then
        match pgInsert (s.rows.filter (fun r => r.1 != existingShortID)) shortID originalURL with
        | .ok rows' => (.ok (), ⟨rows'⟩)
        | .error e => (.error e, s)
      else (.ok (), s)
    | none =>
      match pgInsert s.rows shortID originalURL with
      | .ok rows' => (.ok (), ⟨rows'⟩)
      | .error e => (.error e, s)

/-- PostgresStorage.Get: UPDATE ... RETURNING original_url; the
last_accessed side effect touches only an advisory column, so the
observable state is unchanged.  ErrNotFound when no row matches. -/
def PgState.get (s : PgState) (shortID : String) : Except StoreErr String :=
  match pgLookupByID s.rows shortID with
  | some url => .ok url
  | none => .error .notFound

/-!
CombinedStorage, from internal/storage/combined.go: Redis as cache,
PostgreSQL as the source of truth.  Unavailability of a remote store is
injected per method call through the Faults record (a set fault makes that
call fail with a backend error and leave the store unchanged, exactly how
a connection failure surfaces to combined.go).  Each operation also
returns the list of sub-backend calls it issued, in order, so that
cache-first / durable-first policies are part of the verified behavior.
-/

/-- Which sub-backend calls a combined operation issued, in order. -/
inductive Ev where
  | redisFind
  | redisStore
  | redisGet
  | pgFind
  | pgStore
  | pgGet
deriving DecidableEq, Repr

/-- Per-call fault injection for the two remote stores. -/
structure Faults where
  redisFindFail : Bool
  redisStoreFail : Bool
  redisGetFail : Bool
  pgFindFail : Bool
  pgStoreFail : Bool
  pgGetFail : Bool
deriving DecidableEq, Repr

/-- The healthy environment: no injected faults. -/
def noFaults : Faults := ⟨false, false, false, false, false, false⟩

/-- Combined state: the PostgreSQL table and the Redis store. -/
structure CombinedState where
  pg : PgState
  redis : RedisState
deriving DecidableEq, Repr

/-- s.redis.FindShortIDByURL under possible unavailability. -/
def redisFindF (fail : Bool) (s : RedisState) (originalURL : String) :
    Except StoreErr String × RedisState :=
  if fail then (.error (.backendFail "failed to query for existing URL: redis unavailable"), s)
  else s.findShortIDByURL originalURL

/-- s.redis.StoreWithID under possible unavailability. -/
def redisStoreF (fail : Bool) (s : RedisState) (shortID originalURL : String) :
    Except StoreErr Unit × RedisState :=
  if fail then (.error (.backendFail "failed to store URL in Redis: redis unavailable"), s)
  else s.storeWithID shortID originalURL

/-- s.redis.Get under possible unavailability. -/
def redisGetF (fail : Bool) (s : RedisState) (shortID : String) : Except StoreErr String :=
  if fail then .error (.backendFail "failed to get URL from Redis: redis unavailable")
  else s.get shortID

/-- s.postgres.FindShortIDByURL under possible unavailability. -/
def pgFindF (fail : Bool) (s : PgState) (originalURL : String) : Except StoreErr String :=
  if fail then .error (.backendFail "failed to query for existing URL: postgres unavailable")
  else s.findShortIDByURL originalURL

/-- s.postgres.StoreWithID under possible unavailability. -/
def pgStoreF (fail : Bool) (s : PgState) (shortID originalURL : String) :
    Except StoreErr Unit × PgState :=
  if fail then (.error (.backendFail "failed to insert URL: postgres unavailable"), s)
  else s.storeWithID shortID originalURL

/-- s.postgres.Get under possible unavailability. -/
def pgGetF (fail : Bool) (s : PgState) (shortID : String) : Except StoreErr String :=
  if fail then .error (.backendFail "failed to get URL: postgres unavailable")
  else s.get shortID

/-- CombinedStorage.Find: reject the empty URL; check Redis first and
return a hit at once; otherwise (miss or any Redis error, which is only
logged) consult PostgreSQL; on a durable hit, back-fill the cache
best-effort and return the hit; a durable error other than ErrNotFound is
propagated; otherwise ErrNotFound. -/
def CombinedState.find (fl : Faults) (s : CombinedState) (originalURL : String) :
    Except StoreErr String × CombinedState × List Ev :=
  if originalURL = "" then (.error .invalidURL, s, [])
  else
    let r₁ := redisFindF fl.redisFindFail s.redis originalURL
    match r₁.1 with
    | .ok shortID => (.ok shortID, { s with redis := r₁.2 }, [.redisFind])
    | .error _ =>
      match pgFindF fl.pgFindFail s.pg originalURL with
      | .ok shortID =>
        let r₂ := redisStoreF fl.redisStoreFail r₁.2 shortID originalURL
        (.ok shortID, { s with redis := r₂.2 }, [.redisFind, .pgFind, .redisStore])
      | .error e =>
        if e ≠ .notFound then (.error e, { s with redis := r₁.2 }, [.redisFind, .pgFind])
        else (.error .notFound, { s with redis := r₁.2 }, [.redisFind, .pgFind])

/-- CombinedStorage.StoreWithID: reject the empty URL; write PostgreSQL
first and propagate its failure (wrapped); then write Redis, whose failure
is only logged. -/
def CombinedState.storeWithID (fl : Faults) (s : CombinedState) (shortID originalURL : String) :
    Except StoreErr Unit × CombinedState × List Ev :=
  if originalURL = "" then (.error .invalidURL, s, [])
  else
    let r₁ := pgStoreF fl.pgStoreFail s.pg shortID originalURL
    match r₁.1 with
    | .error e =>
      (.error (.wrapped "failed to store in PostgreSQL" e), { s with pg := r₁.2 }, [.pgStore])
    | .ok _ =>
      let r₂ := redisStoreF fl.redisStoreFail s.redis shortID originalURL
      (.ok (), { pg := r₁.2, redis := r₂.2 }, [.pgStore, .redisStore])

/-- CombinedStorage.Get: try Redis first and return a hit; on any Redis
outcome other than a hit, consult PostgreSQL and propagate its error; on a
durable hit, back-fill the cache best-effort and return the URL. -/
def CombinedState.get (fl : Faults) (s : CombinedState) (shortID : String) :
    Except StoreErr String × CombinedState × List Ev :=
  match redisGetF fl.redisGetFail s.redis shortID with
  | .ok url => (.ok url, s, [.redisGet])
  | .error _ =>
    match pgGetF fl.pgGetFail s.pg shortID with
    | .error e => (.error e, s, [.redisGet, .pgGet])
    | .ok url =>
      let r₂ := redisStoreF fl.redisStoreFail s.redis shortID url
      (.ok url, { s with redis := r₂.2 }, [.redisGet, .pgGet, .redisStore])

/-- The implicit invariant of MemoryStorage: the forward map and the
reverse map are exact inverses of each other. -/
def MemInv (s : MemoryStorage) : Prop :=
  ∀ shortID url, mfind s.urls shortID = some url ↔ mfind s.reverseUrls url = some shortID

/-!
Order and injectivity of the base-62 encoding.  The encoding's order is
shortlex: shorter strings precede longer ones, and equal-length strings
compare digit by digit through the alphabet position of each character.
-/

/-- Big-endian value of a base-62 digit list. -/
def bval : List Nat → Nat
  | [] => 0
  | d :: ds => d * 62 ^ ds.length + bval ds

/-- Big-endian lexicographic comparison of digit lists. -/
def lexLtB : List Nat → List Nat → Bool
  | [], _ => false
  | _ :: _, [] => false
  | a :: as, b :: bs => decide (a < b) || (a == b && lexLtB as bs)

/-- Alphabet position of a character in Base62Charset. -/
def b62val (c : Char) : Nat := Base62Charset.data.indexOf c

/-- The order induced by the encoding: shorter strings first, then
digit-by-digit by alphabet position. -/
def b62LtB (s t : String) : Bool :=
  decide (s.length < t.length) ||
    (s.length == t.length && lexLtB (s.data.map b62val) (t.data.map b62val))

/-- Digit list actually rendered by Encode for a non-negative value:
most significant first, with 0 rendered as the single digit 0. -/
def canonDigits (n : Nat) : List Nat :=
  if n = 0 then [0] else (Nat.digits 62 n).reverse

/-- The specification's reading of the encoding, stated in its own words:
positional base-62 notation, the digits of n most significant first over
the fixed alphabet, with 0 rendering as the zero digit.  This definition
follows the spec text and is compared against Encode, which follows the
source. -/
def specPositionalBase62 (n : Nat) : String :=
  if n = 0 then "0" else String.mk (((Nat.digits 62 n).reverse).map base62digit)

theorem mfind_merase (m : StrMap) (k k' : String) :
    mfind (merase m k) k' = if k' = k then none else mfind m k' := by
  induction m with
  | nil => simp [merase, mfind]
  | cons p t ih =>
    by_cases hp : p.1 = k <;> by_cases hk : k' = k <;>
      by_cases hp' : p.1 = k' <;>
      simp_all [merase, mfind]

theorem mfind_mset (m : StrMap) (k v k' : String) :
    mfind (mset m k v) k' = if k' = k then some v else mfind m k' := by
  by_cases hk : k' = k <;> simp [mset, mfind, mfind_merase, hk]
  intro h
  exact absurd h.symm hk

theorem encodeAux_fuel (fuel id : Nat) (h : id ≤ fuel) :
    encodeAux fuel id = ((Nat.digits 62 id).reverse).map base62digit := by
  induction fuel generalizing id with
  | zero =>
    have : id = 0 := Nat.le_zero.mp h
    subst this
    simp [encodeAux]
  | succ fuel' ih =>
    by_cases h0 : id = 0
    · subst h0
      simp [encodeAux]
    · have hpos : 0 < id := Nat.pos_of_ne_zero h0
      have hdiv : id / 62 ≤ fuel' := by
        have h1 : id / 62 < id := Nat.div_lt_self hpos (by norm_num)
        omega
      rw [encodeAux, if_neg h0, ih _ hdiv,
        Nat.digits_def' (by norm_num : (1:Nat) < 62) hpos]
      simp

/-! Lemmas about MemoryStorage.storeWithID. -/

theorem MemoryStorage.storeWithID_isOk (s : MemoryStorage) (shortID url : String)
    (h : url ≠ "") : (s.storeWithID shortID url).1 = .ok () := by
  simp only [storeWithID, h, if_false, reduceIte]

theorem MemoryStorage.storeWithID_reverse_self (s : MemoryStorage) (shortID url : String)
    (h : url ≠ "") :
    mfind ((s.storeWithID shortID url).2).reverseUrls url = some shortID := by
  simp only [storeWithID, h, if_false, reduceIte]
  split <;> split <;> simp [mfind_mset]

theorem MemoryStorage.storeWithID_urls_self (s : MemoryStorage) (shortID url : String)
    (h : url ≠ "") :
    mfind ((s.storeWithID shortID url).2).urls shortID = some url := by
  simp only [storeWithID, h, if_false, reduceIte]
  split <;> split <;> simp [mfind_mset]

theorem MemoryStorage.storeWithID_urls_old (s : MemoryStorage) (shortID e url : String)
    (h : url ≠ "") (he : mfind s.reverseUrls url = some e) (hne : e ≠ shortID) :
    mfind ((s.storeWithID shortID url).2).urls e = none := by
  simp only [storeWithID, h, if_false, reduceIte, he, hne, ne_eq, not_false_iff, if_true]
  split <;> (try split) <;> simp [mfind_mset, mfind_merase, hne, Ne.symm hne]

theorem MemoryStorage.storeWithID_shape (s : MemoryStorage) (sid url : String) (h : url ≠ "") :
    (s.storeWithID sid url).2 =
      { urls :=
          mset (match mfind s.reverseUrls url with
            | some e => if e ≠ sid then merase s.urls e else s.urls
            | none => s.urls) sid url,
        reverseUrls :=
          mset (match mfind s.urls sid with
            | some eurl => if eurl ≠ url then merase s.reverseUrls eurl else s.reverseUrls
            | none => s.reverseUrls) url sid } := by
  simp only [storeWithID, h, if_false, reduceIte]
  rcases hrev : mfind s.reverseUrls url with _ | e
  · simp only [hrev]
    rcases hfwd : mfind s.urls sid with _ | eurl
    · simp only [hfwd]
    · simp only [hfwd]
      by_cases he2 : eurl = url <;> simp [he2]
  · simp only [hrev]
    by_cases hes : e = sid
    · rw [hes]
      simp only [ne_eq, eq_self_iff_true, not_true_eq_false, reduceIte, if_false]
      rcases hfwd : mfind s.urls sid with _ | eurl
      · simp only [hfwd]
      · simp only [hfwd]
        by_cases he2 : eurl = url <;> simp [he2]
    · simp only [ne_eq, hes, not_false_iff, if_true, reduceIte]
      rw [show mfind (merase s.urls e) sid = mfind s.urls sid from by
        rw [mfind_merase, if_neg fun hx => hes hx.symm]]
      rcases hfwd : mfind s.urls sid with _ | eurl
      · simp only [hfwd]
      · simp only [hfwd]
        by_cases he2 : eurl = url <;> simp [he2]

theorem MemoryStorage.storeWithID_urls_lookup (s : MemoryStorage) (sid url a : String)
    (h : url ≠ "") :
    mfind ((s.storeWithID sid url).2).urls a =
      if a = sid then some url
      else if mfind s.reverseUrls url = some a then none
      else mfind s.urls a := by
  rw [MemoryStorage.storeWithID_shape s sid url h]
  by_cases ha : a = sid
  · simp [ha, mfind_mset]
  · simp only [mfind_mset, if_neg ha]
    rcases hrev : mfind s.reverseUrls url with _ | e
    · simp
    · by_cases hes : e = sid
      · subst hes
        simp [ha, Ne.symm ha]
      · simp [hes, mfind_merase, eq_comm]

theorem MemoryStorage.storeWithID_reverse_lookup (s : MemoryStorage) (sid url b : String)
    (h : url ≠ "") :
    mfind ((s.storeWithID sid url).2).reverseUrls b =
      if b = url then some sid
      else if mfind s.urls sid = some b then none
      else mfind s.reverseUrls b := by
  rw [MemoryStorage.storeWithID_shape s sid url h]
  by_cases hb : b = url
  · simp [hb, mfind_mset]
  · simp only [mfind_mset, if_neg hb]
    rcases hfwd : mfind s.urls sid with _ | eurl
    · simp
    · by_cases he2 : eurl = url
      · subst he2
        simp [hb, Ne.symm hb]
      · simp [he2, mfind_merase, eq_comm]

theorem MemInv_storeWithID (s : MemoryStorage) (sid url : String) (hinv : MemInv s) :
    MemInv (s.storeWithID sid url).2 := by
  by_cases h : url = ""
  · simpa [MemoryStorage.storeWithID, h] using hinv
  · intro a b
    rw [MemoryStorage.storeWithID_urls_lookup s sid url a h,
      MemoryStorage.storeWithID_reverse_lookup s sid url b h]
    by_cases ha : a = sid <;> by_cases hb : b = url
    · simp [ha, hb]
    · simp only [ha, eq_self_iff_true, if_true, if_neg hb]
      by_cases hc2 : mfind s.urls sid = some b
      · simp only [if_pos hc2]
        constructor
        · intro hx; exact absurd (Option.some.inj hx).symm hb
        · intro hx; exact Option.noConfusion hx
      · simp only [if_neg hc2]
        rw [← hinv sid b]
        constructor
        · intro hx; exact absurd (Option.some.inj hx).symm hb
        · intro hx; exact absurd hx hc2
    · simp only [hb, eq_self_iff_true, if_true, if_neg ha]
      by_cases hc1 : mfind s.reverseUrls url = some a
      · simp only [if_pos hc1]
        constructor
        · intro hx; exact Option.noConfusion hx
        · intro hx; exact absurd (Option.some.inj hx).symm ha
      · simp only [if_neg hc1]
        rw [hinv a url]
        constructor
        · intro hx; exact absurd hx hc1
        · intro hx; exact absurd (Option.some.inj hx).symm ha
    · simp only [if_neg ha, if_neg hb]
      by_cases hc1 : mfind s.reverseUrls url = some a
      · by_cases hc2 : mfind s.urls sid = some b
        · simp only [if_pos hc1, if_pos hc2]
          constructor
          · intro hx; exact Option.noConfusion hx
          · intro hx; exact Option.noConfusion hx
        · simp only [if_pos hc1, if_neg hc2]
          constructor
          · intro hx; exact Option.noConfusion hx
          · intro hx
            have h1 : mfind s.urls a = some url := (hinv a url).mpr hc1
            have h2 : mfind s.urls a = some b := (hinv a b).mpr hx
            rw [h1] at h2
            exact absurd (Option.some.inj h2) fun hx2 => hb hx2.symm
      · by_cases hc2 : mfind s.urls sid = some b
        · simp only [if_neg hc1, if_pos hc2]
          constructor
          · intro hx
            have h1 : mfind s.reverseUrls b = some a := (hinv a b).mp hx
            have h2 : mfind s.reverseUrls b = some sid := (hinv sid b).mp hc2
            rw [h1] at h2
            exact absurd (Option.some.inj h2) ha
          · intro hx; exact Option.noConfusion hx
        · simp only [if_neg hc1, if_neg hc2]
          exact hinv a b

theorem MemInv_applyOp (s : MemoryStorage) (op : MemOp) (hinv : MemInv s) :
    MemInv (s.applyOp op) := by
  cases op with
  | find _ => exact hinv
  | get _ => exact hinv
  | store sid url => exact MemInv_storeWithID s sid url hinv

theorem MemInv_foldl (l : List MemOp) (s : MemoryStorage) (hs : MemInv s) :
    MemInv (l.foldl MemoryStorage.applyOp s) := by
  induction l generalizing s with
  | nil => exact hs
  | cons op t ih => exact ih _ (MemInv_applyOp s op hs)

theorem MemInv_runMemOps (ops : List MemOp) : MemInv (runMemOps ops) :=
  MemInv_foldl ops ⟨[], []⟩ (by intro a b; simp [mfind])

/-- No store with a non-empty short ID can create an empty forward key. -/
theorem storeWithID_no_empty_key (s : MemoryStorage) (sid url : String) (hsid : sid ≠ "")
    (hempty : mfind s.urls "" = none) :
    mfind ((s.storeWithID sid url).2).urls "" = none := by
  by_cases h : url = ""
  · simpa [MemoryStorage.storeWithID, h] using hempty
  · rw [MemoryStorage.storeWithID_urls_lookup s sid url "" h]
    simp only [if_neg (Ne.symm hsid)]
    by_cases hc : mfind s.reverseUrls url = some "" <;> simp [hc, hempty]

theorem runMemOps_no_empty_key (ops : List MemOp)
    (hids : ∀ sid url, MemOp.store sid url ∈ ops → sid ≠ "") :
    mfind (runMemOps ops).urls "" = none := by
  have hgen : ∀ (l : List MemOp) (s : MemoryStorage),
      (∀ sid url, MemOp.store sid url ∈ l → sid ≠ "") →
      mfind s.urls "" = none →
      mfind (l.foldl MemoryStorage.applyOp s).urls "" = none := by
    intro l
    induction l with
    | nil => intro s _ hs; exact hs
    | cons op t ih =>
      intro s hl hs
      refine ih _ (fun a b hm => hl a b (List.mem_cons_of_mem _ hm)) ?_
      cases op with
      | find _ => exact hs
      | get _ => exact hs
      | store sid url =>
        exact storeWithID_no_empty_key s sid url (hl sid url (List.mem_cons_self _ _)) hs
  exact hgen ops ⟨[], []⟩ hids (by simp [mfind])

/-! Lemmas about RedisState. -/

theorem shortIDKey_inj {a b : String} (h : shortIDKey a = shortIDKey b) : a = b := by
  have hd : ("url:" ++ a).data = ("url:" ++ b).data := congrArg String.data h
  rw [String.data_append, String.data_append] at hd
  exact String.ext (List.append_cancel_left hd)

theorem RedisState.storeWithID_ok (s : RedisState) (sid url : String) (h : url ≠ "") :
    (s.storeWithID sid url).1 = .ok () ∧
    mfind ((s.storeWithID sid url).2).reverse url = some sid ∧
    mfind ((s.storeWithID sid url).2).kv (shortIDKey sid) = some url := by
  simp only [storeWithID, h, if_false, reduceIte]
  rcases hrev : mfind s.reverse url with _ | e
  · simp [RedisState.findShortIDByURL, hrev, mfind_mset]
  · rcases hkv : mfind s.kv (shortIDKey e) with _ | v
    · simp [RedisState.findShortIDByURL, hrev, hkv, mfind_mset]
    · by_cases hes : e = sid
      · rw [hes] at hrev hkv
        simp [RedisState.findShortIDByURL, hrev, hkv, mfind_mset]
      · simp [RedisState.findShortIDByURL, hrev, hkv, hes, mfind_mset]

theorem redis_replace_two_stores (s : RedisState) (url id1 id2 : String) (h : url ≠ "")
    (hne : id1 ≠ id2) :
    (((s.storeWithID id1 url).2.storeWithID id2 url).2.findShortIDByURL url).1 = .ok id2 ∧
    ((s.storeWithID id1 url).2.storeWithID id2 url).2.get id1 = .error .notFound := by
  obtain ⟨hok1, hrev1, hkv1⟩ := RedisState.storeWithID_ok s id1 url h
  have hkey : shortIDKey id1 ≠ shortIDKey id2 := fun hk => hne (shortIDKey_inj hk)
  generalize hs1 : (s.storeWithID id1 url).2 = s₁ at hrev1 hkv1 ⊢
  have hfind : s₁.findShortIDByURL url = (.ok id1, s₁) := by
    simp [RedisState.findShortIDByURL, hrev1, hkv1]
  simp only [RedisState.storeWithID, h, if_false, reduceIte, hfind, hne, ne_eq, not_false_iff,
    if_true]
  constructor
  · simp [RedisState.findShortIDByURL, mfind_mset, mfind_merase, hkey]
  · simp [RedisState.get, mfind_mset, mfind_merase, hkey, Ne.symm hkey]

/-! Lemmas about PgState. -/

theorem pgInsert_ok_elim {rows rows' : List (String × String)} {sid url : String}
    (h : pgInsert rows sid url = .ok rows') :
    rows' = rows ++ [(sid, url)] ∧
    (∀ r ∈ rows, r.1 ≠ sid) ∧ (∀ r ∈ rows, r.2 ≠ url) := by
  unfold pgInsert at h
  by_cases h1 : rows.any (fun r => r.1 == sid) <;>
    by_cases h2 : rows.any (fun r => r.2 == url) <;>
    simp [h1, h2] at h
  refine ⟨h.symm, ?_, ?_⟩
  · intro r hr hcontra
    apply h1
    exact List.any_eq_true.mpr ⟨r, hr, by simp [hcontra]⟩
  · intro r hr hcontra
    apply h2
    exact List.any_eq_true.mpr ⟨r, hr, by simp [hcontra]⟩

theorem pgLookupByURL_append_of_none {rows₁ rows₂ : List (String × String)} {url : String}
    (h : pgLookupByURL rows₁ url = none) :
    pgLookupByURL (rows₁ ++ rows₂) url = pgLookupByURL rows₂ url := by
  unfold pgLookupByURL at *
  rw [List.find?_append]
  rcases hf : rows₁.find? (fun r => r.2 == url) with _ | r
  · rw [hf]
    simp
  · rw [hf] at h
    simp at h

theorem pgLookupByURL_none_of_no_match {rows : List (String × String)} {url : String}
    (h : ∀ r ∈ rows, r.2 ≠ url) : pgLookupByURL rows url = none := by
  unfold pgLookupByURL
  rw [List.find?_eq_none.mpr (fun r hr => by simpa using h r hr)]
  rfl

theorem pgLookupByID_none_of_no_match {rows : List (String × String)} {sid : String}
    (h : ∀ r ∈ rows, r.1 ≠ sid) : pgLookupByID rows sid = none := by
  unfold pgLookupByID
  rw [List.find?_eq_none.mpr (fun r hr => by simpa using h r hr)]
  rfl

/-- After a successful StoreWithID, the URL resolves to exactly the stored
short ID (the transactional insert enforces uniqueness of original_url). -/
theorem PgState.storeWithID_lookup (s : PgState) (sid url : String) (h : url ≠ "")
    (hok : (s.storeWithID sid url).1 = .ok ()) :
    pgLookupByURL ((s.storeWithID sid url).2).rows url = some sid := by
  rcases s with ⟨rows⟩
  simp only [storeWithID, h, if_false, reduceIte] at hok ⊢
  rcases hlu : pgLookupByURL rows url with _ | e
  · rcases hins : pgInsert rows sid url with e' | rows'
    · simp [hlu, hins] at hok
    · obtain ⟨hshape, _h1, h2⟩ := pgInsert_ok_elim hins
      subst hshape
      simp only [hlu, hins]
      rw [pgLookupByURL_append_of_none hlu]
      simp [pgLookupByURL, List.find?]
  · by_cases hes : e = sid
    · simp [hlu, hes]
    · rcases hins : pgInsert (rows.filter (fun r => r.1 != e)) sid url with e' | rows'
      · simp [hlu, hes, hins] at hok
      · obtain ⟨hshape, _h1, h2⟩ := pgInsert_ok_elim hins
        simp only [hlu, hes, ne_eq, not_false_iff, if_true, hins]
        subst hshape
        rw [pgLookupByURL_append_of_none (pgLookupByURL_none_of_no_match h2)]
        simp [pgLookupByURL, List.find?]

/-- Replace semantics on the durable store: two successful stores of the
same URL under different IDs leave only the second mapping. -/
theorem pg_replace_two_stores (s : PgState) (url id1 id2 : String) (h : url ≠ "")
    (hne : id1 ≠ id2)
    (hok1 : (s.storeWithID id1 url).1 = .ok ())
    (hok2 : ((s.storeWithID id1 url).2.storeWithID id2 url).1 = .ok ()) :
    ((s.storeWithID id1 url).2.storeWithID id2 url).2.findShortIDByURL url = .ok id2 ∧
    ((s.storeWithID id1 url).2.storeWithID id2 url).2.get id1 = .error .notFound := by
  have hlu1 : pgLookupByURL ((s.storeWithID id1 url).2).rows url = some id1 :=
    PgState.storeWithID_lookup s id1 url h hok1
  generalize hs1 : (s.storeWithID id1 url).2 = s₁ at hlu1 hok2 ⊢
  rcases s₁ with ⟨rows₁⟩
  simp only [PgState.storeWithID, h, if_false, reduceIte, hlu1, hne, ne_eq, not_false_iff,
    if_true] at hok2 ⊢
  rcases hins : pgInsert (rows₁.filter (fun r => r.1 != id1)) id2 url with e' | rows₂
  · rw [hins] at hok2
    simp at hok2
  · obtain ⟨hshape, _h1, h2⟩ := pgInsert_ok_elim hins
    subst hshape
    constructor
    · simp only [PgState.findShortIDByURL, h, if_false, reduceIte]
      rw [pgLookupByURL_append_of_none (pgLookupByURL_none_of_no_match h2)]
      simp [pgLookupByURL, List.find?]
    · simp only [PgState.get]
      have hnone : pgLookupByID (rows₁.filter (fun r => r.1 != id1) ++ [(id2, url)]) id1 = none := by
        apply pgLookupByID_none_of_no_match
        intro r hr
        rcases List.mem_append.mp hr with hr1 | hr2
        · simpa using (List.mem_filter.mp hr1).2
        · rw [List.mem_singleton.mp hr2]
          simpa using Ne.symm hne
      rw [hnone]

/-! Lemmas about CombinedState. -/

theorem CombinedState.storeWithID_noFaults_ok (s : CombinedState) (sid url : String)
    (h : url ≠ "")
    (hok : (CombinedState.storeWithID noFaults s sid url).1 = .ok ()) :
    (s.pg.storeWithID sid url).1 = .ok () ∧
    (CombinedState.storeWithID noFaults s sid url).2.1 =
      ⟨(s.pg.storeWithID sid url).2, (s.redis.storeWithID sid url).2⟩ := by
  simp only [CombinedState.storeWithID, h, if_false, reduceIte, noFaults, pgStoreF, redisStoreF,
    Bool.false_eq_true] at hok ⊢
  rcases hpg : (s.pg.storeWithID sid url).1 with e | u
  · rw [hpg] at hok
    simp at hok
  · cases u
    simp

theorem combined_replace_two_stores (c : CombinedState) (url id1 id2 : String)
    (h : url ≠ "") (hne : id1 ≠ id2)
    (hok1 : (CombinedState.storeWithID noFaults c id1 url).1 = .ok ())
    (hok2 : (CombinedState.storeWithID noFaults
      (CombinedState.storeWithID noFaults c id1 url).2.1 id2 url).1 = .ok ()) :
    (CombinedState.find noFaults (CombinedState.storeWithID noFaults
      (CombinedState.storeWithID noFaults c id1 url).2.1 id2 url).2.1 url).1 = .ok id2 ∧
    (CombinedState.get noFaults (CombinedState.storeWithID noFaults
      (CombinedState.storeWithID noFaults c id1 url).2.1 id2 url).2.1 id1).1 =
      .error .notFound := by
  obtain ⟨hpg1, hc1⟩ := CombinedState.storeWithID_noFaults_ok c id1 url h hok1
  obtain ⟨hpg2, hc2⟩ :=
    CombinedState.storeWithID_noFaults_ok
      (CombinedState.storeWithID noFaults c id1 url).2.1 id2 url h hok2
  rw [hc1] at hpg2 hc2
  rw [hc1, hc2]
  simp only at hpg2 ⊢
  have hpgrep := pg_replace_two_stores c.pg url id1 id2 h hne hpg1 hpg2
  have hrdrep := redis_replace_two_stores c.redis url id1 id2 h hne
  constructor
  · simp only [CombinedState.find, h, if_false, reduceIte, noFaults, redisFindF,
      Bool.false_eq_true]
    rw [hrdrep.1]
  · simp only [CombinedState.get, noFaults, redisGetF, pgGetF, Bool.false_eq_true, reduceIte,
      if_false]
    rw [hrdrep.2, hpgrep.2]

/-- Replace semantics on the memory backend. -/
theorem memory_replace_two_stores (s : MemoryStorage) (url id1 id2 : String)
    (h : url ≠ "") (hne : id1 ≠ id2) :
    (s.storeWithID id1 url).1 = .ok () ∧
    ((s.storeWithID id1 url).2.storeWithID id2 url).1 = .ok () ∧
    ((s.storeWithID id1 url).2.storeWithID id2 url).2.find url = .ok id2 ∧
    ((s.storeWithID id1 url).2.storeWithID id2 url).2.get id1 = .error .notFound := by
  refine ⟨MemoryStorage.storeWithID_isOk s id1 url h,
    MemoryStorage.storeWithID_isOk _ id2 url h, ?_, ?_⟩
  · simp only [MemoryStorage.find, h, if_false, reduceIte]
    rw [MemoryStorage.storeWithID_reverse_lookup _ id2 url url h]
    simp
  · simp only [MemoryStorage.get]
    rw [MemoryStorage.storeWithID_urls_lookup _ id2 url id1 h]
    have hrv : mfind ((s.storeWithID id1 url).2).reverseUrls url = some id1 :=
      MemoryStorage.storeWithID_reverse_self s id1 url h
    simp [hne, hrv]

theorem bval_append_one (L : List Nat) (d : Nat) : bval (L ++ [d]) = 62 * bval L + d := by
  induction L with
  | nil => simp [bval]
  | cons a as ih =>
    simp [bval, ih]
    ring

theorem bval_digits (n : Nat) : bval ((Nat.digits 62 n).reverse) = n := by
  induction n using Nat.strong_induction_on with
  | _ n ih =>
    rcases Nat.eq_zero_or_pos n with h0 | hpos
    · subst h0
      simp [bval]
    · rw [Nat.digits_def' (by norm_num : (1:Nat) < 62) hpos, List.reverse_cons,
        bval_append_one, ih (n / 62) (Nat.div_lt_self hpos (by norm_num))]
      exact Nat.div_add_mod n 62

theorem bval_lt_pow (L : List Nat) (h : ∀ d ∈ L, d < 62) : bval L < 62 ^ L.length := by
  induction L with
  | nil => simp [bval]
  | cons d ds ih =>
    have hd : d < 62 := h d (List.mem_cons_self _ _)
    have hds : bval ds < 62 ^ ds.length := ih fun x hx => h x (List.mem_cons_of_mem _ hx)
    have hstep : (d + 1) * 62 ^ ds.length ≤ 62 * 62 ^ ds.length :=
      Nat.mul_le_mul_right _ hd
    simp only [bval, List.length, pow_succ]
    calc d * 62 ^ ds.length + bval ds < d * 62 ^ ds.length + 62 ^ ds.length := by omega
    _ = (d + 1) * 62 ^ ds.length := by ring
    _ ≤ 62 * 62 ^ ds.length := hstep
    _ = 62 ^ ds.length * 62 := by ring

theorem lexLt_of_bval_lt (L1 : List Nat) : ∀ (L2 : List Nat), L1.length = L2.length →
    (∀ d ∈ L1, d < 62) → (∀ d ∈ L2, d < 62) → bval L1 < bval L2 → lexLtB L1 L2 = true := by
  induction L1 with
  | nil =>
    intro L2 hlen _ _ hlt
    have hnil : L2 = [] := List.eq_nil_of_length_eq_zero hlen.symm
    subst hnil
    simp [bval] at hlt
  | cons a as ih =>
    intro L2 hlen h1 h2 hlt
    rcases L2 with _ | ⟨b, bs⟩
    · simp at hlen
    · have hlen' : as.length = bs.length := by simpa using hlen
      rcases Nat.lt_trichotomy a b with hab | hab | hab
      · simp [lexLtB, hab]
      · subst hab
        have htail : bval as < bval bs := by
          simp only [bval, hlen'] at hlt
          omega
        simp [lexLtB, ih bs hlen' (fun d hd => h1 d (List.mem_cons_of_mem _ hd))
          (fun d hd => h2 d (List.mem_cons_of_mem _ hd)) htail]
      · exfalso
        have hbs : bval bs < 62 ^ bs.length :=
          bval_lt_pow bs fun d hd => h2 d (List.mem_cons_of_mem _ hd)
        have hchain : b * 62 ^ bs.length + bval bs < a * 62 ^ as.length + bval as := by
          calc b * 62 ^ bs.length + bval bs
              < b * 62 ^ bs.length + 62 ^ bs.length := by omega
          _ = (b + 1) * 62 ^ bs.length := by ring
          _ ≤ a * 62 ^ bs.length := Nat.mul_le_mul_right _ hab
          _ = a * 62 ^ as.length := by rw [hlen']
          _ ≤ a * 62 ^ as.length + bval as := Nat.le_add_right _ _
        simp only [bval] at hlt
        omega

theorem bval_canonDigits (n : Nat) : bval (canonDigits n) = n := by
  unfold canonDigits
  by_cases h0 : n = 0
  · simp [h0, bval]
  · simp [h0, bval_digits]

theorem canonDigits_lt (n : Nat) : ∀ d ∈ canonDigits n, d < 62 := by
  unfold canonDigits
  by_cases h0 : n = 0
  · simp [h0]
  · simp only [h0, if_false, reduceIte, List.mem_reverse]
    intro d hd
    exact Nat.digits_lt_base (by norm_num) hd

theorem canonDigits_length_mono {n₁ n₂ : Nat} (h : n₁ ≤ n₂) :
    (canonDigits n₁).length ≤ (canonDigits n₂).length := by
  unfold canonDigits
  by_cases h1 : n₁ = 0
  · by_cases h2 : n₂ = 0
    · simp [h1, h2]
    · simp only [h1, if_true, reduceIte, h2, if_false, List.length_reverse]
      have : Nat.digits 62 n₂ ≠ [] := Nat.digits_ne_nil_iff_ne_zero.mpr h2
      have hpos : 0 < (Nat.digits 62 n₂).length := List.length_pos.mpr this
      simpa using hpos
  · have h2 : n₂ ≠ 0 := by
      intro hz
      exact h1 (Nat.le_zero.mp (hz ▸ h))
    simp only [h1, h2, if_false, reduceIte, List.length_reverse]
    exact Nat.le_digits_len_le 62 n₁ n₂ h

theorem b62val_base62digit : ∀ d, d < 62 → b62val (base62digit d) = d := by decide

theorem map_b62val_of_lt (L : List Nat) (h : ∀ d ∈ L, d < 62) :
    (L.map base62digit).map b62val = L := by
  induction L with
  | nil => rfl
  | cons d ds ih =>
    simp only [List.map_cons, b62val_base62digit d (h d (List.mem_cons_self _ _)),
      ih fun x hx => h x (List.mem_cons_of_mem _ hx)]

theorem encode_nat_data (n : Nat) : (Encode (n : Int)).data = (canonDigits n).map base62digit := by
  by_cases h0 : n = 0
  · subst h0
    simp [Encode, canonDigits]
  · have hint : (n : Int) ≠ 0 := by exact_mod_cast h0
    simp [Encode, hint, canonDigits, h0, encodeAux_fuel n n le_rfl]

theorem string_length_data (s : String) : s.length = s.data.length := rfl

theorem encode_b62lt_nat {n₁ n₂ : Nat} (h : n₁ < n₂) :
    b62LtB (Encode (n₁ : Int)) (Encode (n₂ : Int)) = true := by
  have hmap₁ : (Encode (n₁ : Int)).data.map b62val = canonDigits n₁ := by
    rw [encode_nat_data]
    exact map_b62val_of_lt _ (canonDigits_lt n₁)
  have hmap₂ : (Encode (n₂ : Int)).data.map b62val = canonDigits n₂ := by
    rw [encode_nat_data]
    exact map_b62val_of_lt _ (canonDigits_lt n₂)
  have hlen₁ : (Encode (n₁ : Int)).length = (canonDigits n₁).length := by
    rw [string_length_data, encode_nat_data, List.length_map]
  have hlen₂ : (Encode (n₂ : Int)).length = (canonDigits n₂).length := by
    rw [string_length_data, encode_nat_data, List.length_map]
  have hle : (canonDigits n₁).length ≤ (canonDigits n₂).length :=
    canonDigits_length_mono (Nat.le_of_lt h)
  unfold b62LtB
  rcases Nat.lt_or_ge (canonDigits n₁).length (canonDigits n₂).length with hlt | hge
  · rw [hlen₁, hlen₂]
    simp [hlt]
  · have heq : (canonDigits n₁).length = (canonDigits n₂).length := le_antisymm hle hge
    have hlex : lexLtB (canonDigits n₁) (canonDigits n₂) = true :=
      lexLt_of_bval_lt _ _ heq (canonDigits_lt n₁) (canonDigits_lt n₂)
        (by rw [bval_canonDigits, bval_canonDigits]; exact h)
    rw [hlen₁, hlen₂, heq, hmap₁, hmap₂]
    simp [hlex]

theorem encode_inj_nat {n₁ n₂ : Nat} (h : Encode (n₁ : Int) = Encode (n₂ : Int)) : n₁ = n₂ := by
  have hd := congrArg String.data h
  rw [encode_nat_data, encode_nat_data] at hd
  have hmap := congrArg (List.map b62val) hd
  rw [map_b62val_of_lt _ (canonDigits_lt n₁), map_b62val_of_lt _ (canonDigits_lt n₂)] at hmap
  have hb := congrArg bval hmap
  rwa [bval_canonDigits, bval_canonDigits] at hb

theorem encode_eq_specPositionalBase62 (n : Nat) :
    Encode (n : Int) = specPositionalBase62 n := by
  by_cases h0 : n = 0
  · subst h0
    decide
  · have hint : (n : Int) ≠ 0 := by exact_mod_cast h0
    simp [Encode, specPositionalBase62, hint, h0, encodeAux_fuel n n le_rfl]

/-- C1 (amended): for every non-empty url and short IDs id1 != id2, after
a successful StoreWithID(id1, url) followed by a successful
StoreWithID(id2, url), Find(url) returns id2 and Get(id1) returns
NotFound on the memory, cache and durable backends unconditionally
(memory and cache stores always succeed on a non-empty URL, so success
appears there as a conclusion and as a hypothesis for the durable
backend), and on the combined backend provided neither store call has a
fault injected (noFaults): when a cache-write failure is swallowed, the
stale cache mapping can stay live, as the C1 counterexample shows. -/
theorem C1_replace_semantics_all_backends (url id1 id2 : String)
    (h : url ≠ "") (hne : id1 ≠ id2) :
    (∀ s : MemoryStorage,
      (s.storeWithID id1 url).1 = .ok () ∧
      ((s.storeWithID id1 url).2.storeWithID id2 url).1 = .ok () ∧
      ((s.storeWithID id1 url).2.storeWithID id2 url).2.find url = .ok id2 ∧
      ((s.storeWithID id1 url).2.storeWithID id2 url).2.get id1 = .error .notFound) ∧
    (∀ s : RedisState,
      (s.storeWithID id1 url).1 = .ok () ∧
      ((s.storeWithID id1 url).2.storeWithID id2 url).1 = .ok () ∧
      (((s.storeWithID id1 url).2.storeWithID id2 url).2.findShortIDByURL url).1 = .ok id2 ∧
      ((s.storeWithID id1 url).2.storeWithID id2 url).2.get id1 = .error .notFound) ∧
    (∀ s : PgState,
      (s.storeWithID id1 url).1 = .ok () →
      ((s.storeWithID id1 url).2.storeWithID id2 url).1 = .ok () →
      ((s.storeWithID id1 url).2.storeWithID id2 url).2.findShortIDByURL url = .ok id2 ∧
      ((s.storeWithID id1 url).2.storeWithID id2 url).2.get id1 = .error .notFound) ∧
    (∀ c : CombinedState,
      (CombinedState.storeWithID noFaults c id1 url).1 = .ok () →
      (CombinedState.storeWithID noFaults
        (CombinedState.storeWithID noFaults c id1 url).2.1 id2 url).1 = .ok () →
      (CombinedState.find noFaults (CombinedState.storeWithID noFaults
        (CombinedState.storeWithID noFaults c id1 url).2.1 id2 url).2.1 url).1 = .ok id2 ∧
      (CombinedState.get noFaults (CombinedState.storeWithID noFaults
        (CombinedState.storeWithID noFaults c id1 url).2.1 id2 url).2.1 id1).1 =
        .error .notFound) := by
  refine ⟨fun s => memory_replace_two_stores s url id1 id2 h hne,
    fun s => ?_,
    fun s hok1 hok2 => pg_replace_two_stores s url id1 id2 h hne hok1 hok2,
    fun c hok1 hok2 => combined_replace_two_stores c url id1 id2 h hne hok1 hok2⟩
  obtain ⟨hok1, _, _⟩ := RedisState.storeWithID_ok s id1 url h
  obtain ⟨hok2, _, _⟩ := RedisState.storeWithID_ok (s.storeWithID id1 url).2 id2 url h
  obtain ⟨hfind, hget⟩ := redis_replace_two_stores s url id1 id2 h hne
  exact ⟨hok1, hok2, hfind, hget⟩

/-- Witness for C1 at url = "https://example.com/x", id1 = "a", id2 = "b",
starting each backend from its empty state. -/
theorem C1_replace_semantics_all_backends_witness :
    ("https://example.com/x" : String) ≠ "" ∧ ("a" : String) ≠ "b" ∧
    ((MemoryStorage.storeWithID ⟨[], []⟩ "a" "https://example.com/x").2.storeWithID
      "b" "https://example.com/x").2.find "https://example.com/x" = .ok "b" ∧
    (((RedisState.storeWithID ⟨[], []⟩ "a" "https://example.com/x").2.storeWithID
      "b" "https://example.com/x").2.findShortIDByURL "https://example.com/x").1 = .ok "b" ∧
    ((PgState.storeWithID ⟨[]⟩ "a" "https://example.com/x").2.storeWithID
      "b" "https://example.com/x").2.get "a" = .error .notFound ∧
    (CombinedState.get noFaults (CombinedState.storeWithID noFaults
      (CombinedState.storeWithID noFaults ⟨⟨[]⟩, ⟨[], []⟩⟩ "a" "https://example.com/x").2.1
      "b" "https://example.com/x").2.1 "a").1 = .error .notFound := by
  have h := C1_replace_semantics_all_backends "https://example.com/x" "a" "b"
    (by decide) (by decide)
  exact ⟨by decide, by decide, (h.1 ⟨[], []⟩).2.2.1, (h.2.1 ⟨[], []⟩).2.2.1,
    (h.2.2.1 ⟨[]⟩ (by decide) (by decide)).2,
    (h.2.2.2 ⟨⟨[]⟩, ⟨[], []⟩⟩ (by decide) (by decide)).2⟩

/-- C4: on the cache backend, a reverse-index hit whose forward key is
absent is treated as a stale mapping: FindShortIDByURL deletes the
dangling reverse entry and returns NotFound, and it never returns a short
ID whose forward key is missing at lookup time. -/
theorem C4_redis_dangling_reverse_self_heal (s : RedisState) (url sid : String) :
    (mfind s.reverse url = some sid → mfind s.kv (shortIDKey sid) = none →
      s.findShortIDByURL url = (.error .notFound, ⟨s.kv, merase s.reverse url⟩)) ∧
    (∀ sid', (s.findShortIDByURL url).1 = .ok sid' →
      mfind s.kv (shortIDKey sid') ≠ none) := by
  constructor
  · intro h1 h2
    simp [RedisState.findShortIDByURL, h1, h2]
  · intro sid' hok
    rcases hrev : mfind s.reverse url with _ | e
    · simp [RedisState.findShortIDByURL, hrev] at hok
    · rcases hkv : mfind s.kv (shortIDKey e) with _ | v
      · simp [RedisState.findShortIDByURL, hrev, hkv] at hok
      · simp [RedisState.findShortIDByURL, hrev, hkv] at hok
        rw [← hok, hkv]
        simp

/-- Witness for C4: a reverse entry for url "u" pointing at short ID "a"
with no forward key is cleaned up and reported NotFound. -/
theorem C4_witness :
    mfind (⟨[], [("u", "a")]⟩ : RedisState).reverse "u" = some "a" ∧
    mfind (⟨[], [("u", "a")]⟩ : RedisState).kv (shortIDKey "a") = none ∧
    RedisState.findShortIDByURL ⟨[], [("u", "a")]⟩ "u" =
      (.error .notFound, ⟨[], merase [("u", "a")] "u"⟩) := by
  have h := (C4_redis_dangling_reverse_self_heal ⟨[], [("u", "a")]⟩ "u" "a").1
  exact ⟨by decide, by decide, h (by decide) (by decide)⟩

/-- C5 counterexample: the cache backend's Find (FindShortIDByURL) does
not validate the empty URL; on the empty cache it reports NotFound, not
InvalidInput, contradicting the claim that every backend yields
InvalidInput for an empty originalURL. -/
theorem C5_counterexample :
    (RedisState.findShortIDByURL ⟨[], []⟩ "").1 = .error .notFound ∧
    (RedisState.findShortIDByURL ⟨[], []⟩ "").1 ≠ .error .invalidURL := by decide

/-- C5 (amended): StoreWithID with an empty originalURL returns
InvalidInput and leaves the state unchanged on all four backends, and
Find with an empty originalURL returns InvalidInput on the memory,
durable and combined backends; the cache backend's Find performs no
empty-URL validation. -/
theorem C5_amended_empty_url_invalid :
    (∀ s : MemoryStorage, s.find "" = .error .invalidURL) ∧
    (∀ (s : MemoryStorage) (sid : String), s.storeWithID sid "" = (.error .invalidURL, s)) ∧
    (∀ (s : RedisState) (sid : String), s.storeWithID sid "" = (.error .invalidURL, s)) ∧
    (∀ s : PgState, s.findShortIDByURL "" = .error .invalidURL) ∧
    (∀ (s : PgState) (sid : String), s.storeWithID sid "" = (.error .invalidURL, s)) ∧
    (∀ (fl : Faults) (s : CombinedState), CombinedState.find fl s "" = (.error .invalidURL, s, [])) ∧
    (∀ (fl : Faults) (s : CombinedState) (sid : String),
      CombinedState.storeWithID fl s sid "" = (.error .invalidURL, s, [])) := by
  refine ⟨?_, ?_, ?_, ?_, ?_, ?_, ?_⟩ <;> intros <;>
    simp [MemoryStorage.find, MemoryStorage.storeWithID, RedisState.storeWithID,
      PgState.findShortIDByURL, PgState.storeWithID, CombinedState.find,
      CombinedState.storeWithID]

/-- C6: Encode is the base-62 positional-notation conversion over the
fixed alphabet: Encode 0 is "0", every positive value renders as its
base-62 digits most significant first, Encode 61 is "Z" and Encode 62 is
"10". -/
theorem C6_encode_base62_positional :
    Encode 0 = "0" ∧
    (∀ n : Int, 0 < n → Encode n = specPositionalBase62 n.toNat) ∧
    Encode 61 = "Z" ∧ Encode 62 = "10" := by
  refine ⟨by decide, ?_, by decide, by decide⟩
  intro n hn
  have hcast : ((n.toNat : Int)) = n := Int.toNat_of_nonneg (le_of_lt hn)
  rw [← hcast, encode_eq_specPositionalBase62, Int.toNat_natCast]

/-- Witness for C6 at n = 62. -/
theorem C6_witness :
    (0 : Int) < 62 ∧ Encode 62 = specPositionalBase62 (62 : Int).toNat := by
  have h := C6_encode_base62_positional
  exact ⟨by decide, h.2.1 62 (by decide)⟩

/-- C7: Encode is order-preserving on non-negative inputs in the
encoding's shortlex order (shorter strings first, equal lengths compared
digit-by-digit through the alphabet position), and therefore injective
over the non-negative range. -/
theorem C7_encode_order_preserving_injective :
    (∀ n₁ n₂ : Int, 0 ≤ n₁ → n₁ < n₂ → b62LtB (Encode n₁) (Encode n₂) = true) ∧
    (∀ n₁ n₂ : Int, 0 ≤ n₁ → 0 ≤ n₂ → n₁ ≠ n₂ → Encode n₁ ≠ Encode n₂) := by
  constructor
  · intro n₁ n₂ h1 hlt
    obtain ⟨a, rfl⟩ := Int.eq_ofNat_of_zero_le h1
    obtain ⟨b, rfl⟩ := Int.eq_ofNat_of_zero_le (le_trans h1 (le_of_lt hlt))
    exact encode_b62lt_nat (by exact_mod_cast hlt)
  · intro n₁ n₂ h1 h2 hne heq
    obtain ⟨a, rfl⟩ := Int.eq_ofNat_of_zero_le h1
    obtain ⟨b, rfl⟩ := Int.eq_ofNat_of_zero_le h2
    exact hne (by exact_mod_cast congrArg (fun m : Nat => (m : Int)) (encode_inj_nat heq))

/-- Witness for C7 at n1 = 3, n2 = 100. -/
theorem C7_witness :
    (0 : Int) ≤ 3 ∧ (3 : Int) < 100 ∧ b62LtB (Encode 3) (Encode 100) = true ∧
    (0 : Int) ≤ 100 ∧ (3 : Int) ≠ 100 ∧ Encode 3 ≠ Encode 100 := by
  have h := C7_encode_order_preserving_injective
  exact ⟨by decide, by decide, h.1 3 100 (by decide) (by decide), by decide, by decide,
    h.2 3 100 (by decide) (by decide) (by decide)⟩

/-- C8 counterexample: the memory backend accepts an empty shortID:
StoreWithID("", url) succeeds and leaves a live mapping under the empty
key, so empty short IDs are neither rejected nor kept out of the store. -/
theorem C8_counterexample :
    (MemoryStorage.storeWithID ⟨[], []⟩ "" "https://example.com/x").1 = .ok () ∧
    (MemoryStorage.storeWithID ⟨[], []⟩ "" "https://example.com/x").2.get "" =
      .ok "https://example.com/x" := by decide

/-- C8 (amended): the backends do not validate shortID, so a stored
shortID is non-empty only because the callers supply non-empty IDs: the
base-62 encoder never returns the empty string for a non-negative input,
and any run of the memory backend whose StoreWithID calls all carry a
non-empty shortID never holds a mapping under the empty key. -/
theorem C8_amended_no_empty_short_id :
    (∀ n : Int, 0 ≤ n → Encode n ≠ "") ∧
    (∀ ops : List MemOp, (∀ sid url, MemOp.store sid url ∈ ops → sid ≠ "") →
      mfind (runMemOps ops).urls "" = none) := by
  constructor
  · intro n hn hemp
    obtain ⟨a, rfl⟩ := Int.eq_ofNat_of_zero_le hn
    have hd := congrArg String.data hemp
    rw [encode_nat_data] at hd
    have hnil : canonDigits a = [] := by simpa using hd
    have hne : canonDigits a ≠ [] := by
      unfold canonDigits
      by_cases h0 : a = 0
      · simp [h0]
      · simp [h0, Nat.digits_ne_nil_iff_ne_zero.mpr h0]
    exact hne hnil
  · exact runMemOps_no_empty_key

/-- Witness for C8 (amended): Encode 5 is non-empty, and one store under
the ID "a" leaves no empty key. -/
theorem C8_amended_witness :
    (0 : Int) ≤ 5 ∧ Encode 5 ≠ "" ∧
    mfind (runMemOps [MemOp.store "a" "https://example.com/x"]).urls "" = none := by
  have h := C8_amended_no_empty_short_id
  refine ⟨by decide, h.1 5 (by decide), h.2 [MemOp.store "a" "https://example.com/x"] ?_⟩
  intro sid url hm
  simp at hm
  rw [hm.1]
  decide

/-- C9: GenerateShortID never propagates a generator failure: when NextID
succeeds with value id it returns Encode id, and when NextID fails it
returns the encoding of the current wall-clock time in nanoseconds. -/
theorem C9_generateShortID_total (idv nowNano : Int) (msg : String) :
    GenerateShortID (idv, none) nowNano = Encode idv ∧
    GenerateShortID (idv, some msg) nowNano = Encode nowNano :=
  ⟨rfl, rfl⟩

/-- C10: implicit invariant of the memory backend: starting from the
empty backend, after any finite sequence of Find/StoreWithID/Get calls
the forward map and the reverse map are exact inverses: urls maps id to
url exactly when reverseUrls maps url to id. -/
theorem C10_memory_maps_exact_inverse (ops : List MemOp) (shortID url : String) :
    mfind (runMemOps ops).urls shortID = some url ↔
    mfind (runMemOps ops).reverseUrls url = some shortID :=
  MemInv_runMemOps ops shortID url

/-- C2: CombinedStorage.StoreWithID writes the durable store first and
succeeds exactly when the durable write succeeds: a durable failure is
returned (wrapped) with the cache left unwritten and no cache call
issued, while after a durable success the call succeeds no matter what
the cache write does, with the durable write first in the call order. -/
theorem C2_combined_store_durable_first (fl : Faults) (s : CombinedState) (sid url : String)
    (h : url ≠ "") :
    ((CombinedState.storeWithID fl s sid url).1 = .ok () ↔
      (pgStoreF fl.pgStoreFail s.pg sid url).1 = .ok ()) ∧
    (∀ e, (pgStoreF fl.pgStoreFail s.pg sid url).1 = .error e →
      (CombinedState.storeWithID fl s sid url).1 =
        .error (.wrapped "failed to store in PostgreSQL" e) ∧
      (CombinedState.storeWithID fl s sid url).2.1.redis = s.redis ∧
      (CombinedState.storeWithID fl s sid url).2.2 = [.pgStore]) ∧
    ((pgStoreF fl.pgStoreFail s.pg sid url).1 = .ok () →
      (CombinedState.storeWithID fl s sid url).1 = .ok () ∧
      (CombinedState.storeWithID fl s sid url).2.1.pg = (pgStoreF fl.pgStoreFail s.pg sid url).2 ∧
      (CombinedState.storeWithID fl s sid url).2.2 = [.pgStore, .redisStore]) := by
  simp only [CombinedState.storeWithID, h, if_false, reduceIte]
  rcases hpg : (pgStoreF fl.pgStoreFail s.pg sid url).1 with e | u
  · refine ⟨by simp, ?_, by simp⟩
    intro e' he'
    have he : e = e' := Except.error.inj he'
    subst he
    simp
  · cases u
    refine ⟨by simp, ?_, by simp⟩
    intro e' he'
    exact Except.noConfusion he'

/-- Witness for C2 with a healthy durable store and a failing cache:
the call still succeeds and the durable write comes first. -/
theorem C2_witness :
    ("https://example.com/x" : String) ≠ "" ∧
    ((CombinedState.storeWithID ⟨false, true, false, false, false, false⟩
        ⟨⟨[]⟩, ⟨[], []⟩⟩ "a" "https://example.com/x").1 = .ok () ↔
      (pgStoreF false ⟨[]⟩ "a" "https://example.com/x").1 = .ok ()) ∧
    ((pgStoreF false ⟨[]⟩ "a" "https://example.com/x").1 = .ok () →
      (CombinedState.storeWithID ⟨false, true, false, false, false, false⟩
        ⟨⟨[]⟩, ⟨[], []⟩⟩ "a" "https://example.com/x").2.2 = [.pgStore, .redisStore]) := by
  have h := C2_combined_store_durable_first ⟨false, true, false, false, false, false⟩
    ⟨⟨[]⟩, ⟨[], []⟩⟩ "a" "https://example.com/x" (by decide)
  exact ⟨by decide, h.1, fun hok => (h.2.2 hok).2.2⟩

/-- C3 counterexample: the claim quantifies over every input, but
CombinedStorage.Find on the empty URL answers InvalidInput directly: no
store is consulted at all, so the durable store does not determine the
outcome of that non-hit.  The negation of "whenever the cache does not
hit, the durable store is consulted" is exhibited at originalURL = "". -/
theorem C3_counterexample :
    ¬ (∀ (fl : Faults) (s : CombinedState) (url : String) (e : StoreErr),
        (redisFindF fl.redisFindFail s.redis url).1 = .error e →
        Ev.pgFind ∈ (CombinedState.find fl s url).2.2) := by
  intro hclaim
  have h := hclaim noFaults ⟨⟨[]⟩, ⟨[], []⟩⟩ "" .notFound (by decide)
  simp [CombinedState.find] at h

/-- C3 (amended): for every non-empty url, CombinedStorage.Find consults
the cache first and returns a hit at once without issuing any durable
call; on a cache miss or cache error the durable store is consulted and
its result determines the outcome, with a best-effort back-fill on a
durable hit that never changes the returned value; CombinedStorage.Get
behaves the same way on every shortID.  (The empty url is rejected as
InvalidInput before any store is consulted.) -/
theorem C3_amended_cache_first_policy (fl : Faults) (s : CombinedState) :
    (∀ url, url ≠ "" →
      (∀ sid, (redisFindF fl.redisFindFail s.redis url).1 = .ok sid →
        (CombinedState.find fl s url).1 = .ok sid ∧
        (CombinedState.find fl s url).2.2 = [.redisFind] ∧
        (CombinedState.find fl s url).2.1.pg = s.pg) ∧
      (∀ e, (redisFindF fl.redisFindFail s.redis url).1 = .error e →
        ((∀ sid, pgFindF fl.pgFindFail s.pg url = .ok sid →
            (CombinedState.find fl s url).1 = .ok sid ∧
            (CombinedState.find fl s url).2.2 = [.redisFind, .pgFind, .redisStore]) ∧
          (pgFindF fl.pgFindFail s.pg url = .error .notFound →
            (CombinedState.find fl s url).1 = .error .notFound ∧
            (CombinedState.find fl s url).2.2 = [.redisFind, .pgFind]) ∧
          (∀ e', pgFindF fl.pgFindFail s.pg url = .error e' → e' ≠ .notFound →
            (CombinedState.find fl s url).1 = .error e' ∧
            (CombinedState.find fl s url).2.2 = [.redisFind, .pgFind])))) ∧
    (∀ sid,
      (∀ u, redisGetF fl.redisGetFail s.redis sid = .ok u →
        (CombinedState.get fl s sid).1 = .ok u ∧
        (CombinedState.get fl s sid).2.2 = [.redisGet] ∧
        (CombinedState.get fl s sid).2.1.pg = s.pg) ∧
      (∀ e, redisGetF fl.redisGetFail s.redis sid = .error e →
        ((∀ u, pgGetF fl.pgGetFail s.pg sid = .ok u →
            (CombinedState.get fl s sid).1 = .ok u ∧
            (CombinedState.get fl s sid).2.2 = [.redisGet, .pgGet, .redisStore]) ∧
          (∀ e', pgGetF fl.pgGetFail s.pg sid = .error e' →
            (CombinedState.get fl s sid).1 = .error e' ∧
            (CombinedState.get fl s sid).2.2 = [.redisGet, .pgGet])))) := by
  constructor
  · intro url hurl
    constructor
    · intro sid hhit
      simp [CombinedState.find, hurl, hhit]
    · intro e herr
      refine ⟨?_, ?_, ?_⟩
      · intro sid hpg
        simp [CombinedState.find, hurl, herr, hpg]
      · intro hpg
        simp [CombinedState.find, hurl, herr, hpg]
      · intro e' hpg hne
        simp [CombinedState.find, hurl, herr, hpg, hne]
  · intro sid
    constructor
    · intro u hhit
      simp [CombinedState.get, hhit]
    · intro e herr
      constructor
      · intro u hpg
        simp [CombinedState.get, herr, hpg]
      · intro e' hpg
        simp [CombinedState.get, herr, hpg]

/-- Witness for C3 (amended): a warm cache answers a Find directly with
no durable call. -/
theorem C3_amended_witness :
    ("u" : String) ≠ "" ∧
    (redisFindF noFaults.redisFindFail
      (⟨⟨[]⟩, ⟨[("url:a", "u")], [("u", "a")]⟩⟩ : CombinedState).redis "u").1 = .ok "a" ∧
    (CombinedState.find noFaults ⟨⟨[]⟩, ⟨[("url:a", "u")], [("u", "a")]⟩⟩ "u").1 = .ok "a" ∧
    (CombinedState.find noFaults ⟨⟨[]⟩, ⟨[("url:a", "u")], [("u", "a")]⟩⟩ "u").2.2 =
      [.redisFind] := by
  have h := C3_amended_cache_first_policy noFaults ⟨⟨[]⟩, ⟨[("url:a", "u")], [("u", "a")]⟩⟩
  have hh := (h.1 "u" (by decide)).1 "a" (by decide)
  exact ⟨by decide, by decide, hh.1, hh.2.1⟩

/-- C1 counterexample: on the combined backend the claim fails as stated.
Starting from the empty stores, StoreWithID("a", url) succeeds with a
healthy cache; a second StoreWithID("b", url) during which only the cache
write fails still succeeds (the cache error is swallowed, exactly the
successful-store behavior of claim C2), yet afterwards Find(url) serves
the stale live cache mapping "a" rather than "b", and Get("a") still
returns the URL instead of NotFound — a live duplicate for one URL. -/
theorem C1_counterexample :
    ("a" : String) ≠ "b" ∧ ("https://example.com/x" : String) ≠ "" ∧
    (CombinedState.storeWithID noFaults ⟨⟨[]⟩, ⟨[], []⟩⟩ "a" "https://example.com/x").1 =
      .ok () ∧
    (CombinedState.storeWithID ⟨false, true, false, false, false, false⟩
      (CombinedState.storeWithID noFaults ⟨⟨[]⟩, ⟨[], []⟩⟩ "a" "https://example.com/x").2.1
      "b" "https://example.com/x").1 = .ok () ∧
    (CombinedState.find noFaults
      (CombinedState.storeWithID ⟨false, true, false, false, false, false⟩
        (CombinedState.storeWithID noFaults ⟨⟨[]⟩, ⟨[], []⟩⟩ "a" "https://example.com/x").2.1
        "b" "https://example.com/x").2.1 "https://example.com/x").1 = .ok "a" ∧
    (CombinedState.find noFaults
      (CombinedState.storeWithID ⟨false, true, false, false, false, false⟩
        (CombinedState.storeWithID noFaults ⟨⟨[]⟩, ⟨[], []⟩⟩ "a" "https://example.com/x").2.1
        "b" "https://example.com/x").2.1 "https://example.com/x").1 ≠ .ok "b" ∧
    (CombinedState.get noFaults
      (CombinedState.storeWithID ⟨false, true, false, false, false, false⟩
        (CombinedState.storeWithID noFaults ⟨⟨[]⟩, ⟨[], []⟩⟩ "a" "https://example.com/x").2.1
        "b" "https://example.com/x").2.1 "a").1 = .ok "https://example.com/x" ∧
    (CombinedState.get noFaults
      (CombinedState.storeWithID ⟨false, true, false, false, false, false⟩
        (CombinedState.storeWithID noFaults ⟨⟨[]⟩, ⟨[], []⟩⟩ "a" "https://example.com/x").2.1
        "b" "https://example.com/x").2.1 "a").1 ≠ .error .notFound := by decide
